import Mathlib

/-!
Shallow embedding of the alert-evaluation core of the ETH-gas-bot repository
(`src/alerts.py`, constants from `src/config.py`).  Python floats are modelled
as exact rationals (the program only compares and multiplies them), Telegram
user ids as `Int`, timestamps as `Nat` tick counts, and the process-wide dict
`user_alerts` as an insertion-ordered association list (Python dicts preserve
insertion order; a new key is appended at the end).
-/

namespace GasBot

/-- `config.py`: `MIN_ALERT_PRICE = 0.1`. -/
def MIN_ALERT_PRICE : ℚ := 1 / 10

/-- `config.py`: `MAX_ALERT_PRICE = 1000`. -/
def MAX_ALERT_PRICE : ℚ := 1000

/-- `config.py`: `MAX_ALERTS_PER_USER = 10`. -/
def MAX_ALERTS_PER_USER : ℕ := 10

/-- `config.py`: `GAS_LIMITS['eth_transfer'] = 21000`. -/
def GAS_LIMITS_eth_transfer : ℕ := 21000

/-- `config.py`: `GAS_LIMITS['token_swap'] = 356190`. -/
def GAS_LIMITS_token_swap : ℕ := 356190

/-- One alert record, the dict built in `AlertManager.add_alert`:
`{'price': target_price, 'created_at': datetime.now(), 'triggered': False}`. -/
structure Alert where
  price : ℚ
  created_at : ℕ
  triggered : Bool
deriving DecidableEq, Repr

/-- The module-level dict `user_alerts = {}` mapping a user id to that user's
list of alerts, as an insertion-ordered association list. -/
abbrev Store := List (Int × List Alert)

/-- Python `user_alerts[uid]` / `uid in user_alerts`: first (only) binding of
`uid`, if any. -/
def lookupStore (uid : Int) : Store → Option (List Alert)
  | [] => none
  | (v, as) :: rest => if v = uid then some as else lookupStore uid rest

/-- Python `user_alerts[uid] = as`: overwrite the existing binding in place,
or append a new binding at the end (dict insertion order). -/
def setStore (uid : Int) (as : List Alert) : Store → Store
  | [] => [(uid, as)]
  | (v, bs) :: rest =>
      if v = uid then (v, as) :: rest else (v, bs) :: setStore uid as rest

/-- The three result dicts `add_alert` can return: the price-range failure
message, the capacity failure message, or success carrying the new alert. -/
inductive AddResult where
  | priceOutOfRange
  | capacityExceeded
  | added (alert : Alert)
deriving DecidableEq, Repr

/-- `AlertManager.add_alert(user_id, target_price)`.  The Python body checks
`target_price < MIN_ALERT_PRICE or target_price > MAX_ALERT_PRICE` first, then
`user_id in user_alerts and len(user_alerts[user_id]) >= MAX_ALERTS_PER_USER`,
then creates the (possibly fresh) list and appends the new alert.  `now` stands
for `datetime.now()`. -/
def add_alert (now : ℕ) (user_id : Int) (target_price : ℚ) (s : Store) :
    AddResult × Store :=
  if target_price < MIN_ALERT_PRICE ∨ target_price > MAX_ALERT_PRICE then
    (AddResult.priceOutOfRange, s)
  else
    match lookupStore user_id s with
    | some as =>
        if MAX_ALERTS_PER_USER ≤ as.length then
          (AddResult.capacityExceeded, s)
        else
          (AddResult.added ⟨target_price, now, false⟩,
           setStore user_id (as ++ [⟨target_price, now, false⟩]) s)
    | none =>
        (AddResult.added ⟨target_price, now, false⟩,
         setStore user_id [⟨target_price, now, false⟩] s)

/-- `AlertManager.get_user_alerts`: `user_alerts.get(user_id, [])`. -/
def get_user_alerts (user_id : Int) (s : Store) : List Alert :=
  (lookupStore user_id s).getD []

/-- `AlertManager.clear_user_alerts`: if present, remember the count and set
the binding to `[]` (the key stays in the dict); otherwise return `0`. -/
def clear_user_alerts (user_id : Int) (s : Store) : ℕ × Store :=
  match lookupStore user_id s with
  | some as => (as.length, setStore user_id [] s)
  | none => (0, s)

/-- `AlertManager.delete_alert`: `if user_id in user_alerts and
0 <= alert_index < len(user_alerts[user_id]): pop(alert_index)`.  The index is
an `Int` exactly as in Python, so a negative index fails the guard. -/
def delete_alert (user_id : Int) (alert_index : Int) (s : Store) :
    Bool × Store :=
  match lookupStore user_id s with
  | some as =>
      if 0 ≤ alert_index ∧ alert_index < (as.length : Int) then
        (true,
         setStore user_id
           (as.take alert_index.toNat ++ as.drop (alert_index.toNat + 1)) s)
      else (false, s)
  | none => (false, s)

/-- `AlertManager.has_alerts`: `user_id in user_alerts and
len(user_alerts[user_id]) > 0`. -/
def has_alerts (user_id : Int) (s : Store) : Bool :=
  match lookupStore user_id s with
  | some as => decide (0 < as.length)
  | none => false

/-- `gas_utils.calculate_tx_cost(gas_price_gwei, gas_limit, eth_price)`:
`gas_price * 1e-9 * gas_limit * eth_price` (no failure for numeric inputs). -/
def calculate_tx_cost (gas_price_gwei : ℚ) (gas_limit : ℕ) (eth_price : ℚ) :
    ℚ :=
  gas_price_gwei * (1 / 1000000000) * gas_limit * eth_price

/-- One message sent by `check_and_notify_alerts` via
`context.bot.send_message`: the recipient, the data interpolated into the
message text (target price, current gas, the two sample costs), and whether
the send succeeded (`delivered = false` models the caught exception branch). -/
structure Notification where
  user : Int
  target_price : ℚ
  current_gas : ℚ
  eth_transfer_cost : ℚ
  token_swap_cost : ℚ
  delivered : Bool
deriving DecidableEq, Repr

/-- The trigger condition of the scan loop:
`not alert['triggered'] and current_gas <= alert['price']`. -/
def triggersNow (fee : ℚ) (a : Alert) : Bool :=
  !a.triggered && decide (fee ≤ a.price)

/-- The notification built for alert `a` of user `uid` at fee `fee` and ETH
price `eth`; `sendOk` models whether `bot.send_message` succeeds. -/
def mkNotif (fee eth : ℚ) (sendOk : Int → ℚ → Bool) (uid : Int) (a : Alert) :
    Notification :=
  ⟨uid, a.price, fee,
   calculate_tx_cost fee GAS_LIMITS_eth_transfer eth,
   calculate_tx_cost fee GAS_LIMITS_token_swap eth,
   sendOk uid a.price⟩

/-- The inner loop of `check_and_notify_alerts` over one user's alert list:
each untriggered alert whose price is at or above the fee is marked
`triggered = True` and a notification is sent for it; a send failure is caught
and recorded but changes nothing else. -/
def scanAlertList (fee eth : ℚ) (sendOk : Int → ℚ → Bool) (uid : Int) :
    List Alert → List Alert × List Notification
  | [] => ([], [])
  | a :: rest =>
      let tail := scanAlertList fee eth sendOk uid rest
      if triggersNow fee a then
        ({ a with triggered := true } :: tail.1,
         mkNotif fee eth sendOk uid a :: tail.2)
      else (a :: tail.1, tail.2)

/-- The outer loop of `check_and_notify_alerts` over
`user_alerts.items()`. -/
def scanStore (fee eth : ℚ) (sendOk : Int → ℚ → Bool) :
    Store → Store × List Notification
  | [] => ([], [])
  | (uid, as) :: rest =>
      let here := scanAlertList fee eth sendOk uid as
      let there := scanStore fee eth sendOk rest
      ((uid, here.1) :: there.1, here.2 ++ there.2)

/-- Outcome of `float(gas_data.get('ProposeGasPrice', 0))` when the key is
present: either the parsed number, or `invalid` when `float()` raises
`ValueError` (a non-numeric string). -/
inductive FeeField where
  | num (q : ℚ)
  | invalid
deriving DecidableEq, Repr

/-- The slice of the Etherscan result dict the scan reads: the
`ProposeGasPrice` entry, absent when the key is missing (then `.get` supplies
the default `0`). -/
structure GasData where
  proposeGasPrice : Option FeeField
deriving DecidableEq

/-- `check_and_notify_alerts(context)`.  `gas_data` is the `fetch_gas_data()`
result (`none` = unavailable); `eth_quote` is the fetched ETH price, with
`get_eth_price()`'s fallback `2500` applied when the fetch failed; `sendOk`
models the notification sink.  `Except.error ()` models an uncaught
`ValueError` from `float(...)` propagating to the job queue; in every other
case the coroutine returns normally with the updated store and the sent
notifications. -/
def check_and_notify_alerts (gas_data : Option GasData) (eth_quote : Option ℚ)
    (sendOk : Int → ℚ → Bool) (s : Store) :
    Except Unit (Store × List Notification) :=
  match gas_data with
  | none => Except.ok (s, [])
  | some gd =>
      match gd.proposeGasPrice.getD (FeeField.num 0) with
      | FeeField.invalid => Except.error ()
      | FeeField.num current_gas =>
          if current_gas = 0 then Except.ok (s, [])
          else
            Except.ok (scanStore current_gas (eth_quote.getD 2500) sendOk s)

/-- One operation on the shared store: an `AlertManager` mutation or one run
of the periodic scan job. -/
inductive Op where
  | add (now : ℕ) (uid : Int) (price : ℚ)
  | del (uid : Int) (idx : Int)
  | clear (uid : Int)
  | scan (gas_data : Option GasData) (eth_quote : Option ℚ)
      (sendOk : Int → ℚ → Bool)

/-- The store after one operation.  A scan that raises (`Except.error`) does
so before touching any alert, so the store is unchanged in that case. -/
def applyOp (s : Store) : Op → Store
  | Op.add now uid price => (add_alert now uid price s).2
  | Op.del uid idx => (delete_alert uid idx s).2
  | Op.clear uid => (clear_user_alerts uid s).2
  | Op.scan gd q k =>
      match check_and_notify_alerts gd q k s with
      | Except.ok out => out.1
      | Except.error _ => s

/-- The store after a sequence of operations. -/
def applyOps (ops : List Op) (s : Store) : Store :=
  ops.foldl applyOp s

/-- The per-user capacity invariant of the store. -/
def StoreInv (s : Store) : Prop :=
  ∀ p ∈ s, p.2.length ≤ MAX_ALERTS_PER_USER

/-- Keys of the association list are distinct, as they are for a Python
dict. -/
def NoDupKeys (s : Store) : Prop :=
  (s.map Prod.fst).Nodup

/-- Equality of the observations the public accessors expose: both stores
answer every `get_user_alerts` query identically. -/
def obsEq (s1 s2 : Store) : Prop :=
  ∀ u : Int, get_user_alerts u s1 = get_user_alerts u s2

/-- The notifications a given user receives during a scan. -/
def notifsFor (u : Int) (ns : List Notification) : List Notification :=
  ns.filter (fun n => n.user = u)

/-- The update the scan loop applies to one alert record: mark it triggered
exactly when the trigger condition holds, otherwise leave it unchanged. -/
def fireIf (fee : ℚ) (a : Alert) : Alert :=
  if triggersNow fee a then { a with triggered := true } else a

/-- The delivery-independent content of a notification: everything except
whether `bot.send_message` succeeded. -/
def notifCore (n : Notification) : Int × ℚ × ℚ × ℚ × ℚ :=
  (n.user, n.target_price, n.current_gas, n.eth_transfer_cost,
   n.token_swap_cost)

/- ### Helper lemmas about the store and the scan -/

theorem lookup_setStore_self (u : Int) (as : List Alert) :
    ∀ s : Store, lookupStore u (setStore u as s) = some as := by
  intro s
  induction s with
  | nil => simp [setStore, lookupStore]
  | cons p rest ih =>
      by_cases h : p.1 = u
      · simp [setStore, lookupStore, h]
      · simp [setStore, lookupStore, h, ih]

theorem lookup_setStore_ne (u v : Int) (as : List Alert) (hvu : v ≠ u) :
    ∀ s : Store, lookupStore v (setStore u as s) = lookupStore v s := by
  have huv : ¬u = v := fun h => hvu h.symm
  intro s
  induction s with
  | nil => simp [setStore, lookupStore, huv]
  | cons p rest ih =>
      by_cases h : p.1 = u
      · simp [setStore, lookupStore, h, huv]
      · by_cases h2 : p.1 = v
        · simp [setStore, lookupStore, h, h2, hvu]
        · simp [setStore, lookupStore, h, h2, ih]

theorem get_setStore_self (u : Int) (as : List Alert) (s : Store) :
    get_user_alerts u (setStore u as s) = as := by
  simp [get_user_alerts, lookup_setStore_self]

theorem get_setStore_ne (u v : Int) (as : List Alert) (hvu : v ≠ u)
    (s : Store) :
    get_user_alerts v (setStore u as s) = get_user_alerts v s := by
  simp [get_user_alerts, lookup_setStore_ne u v as hvu]

theorem lookup_map_store (f : Int → List Alert → List Alert) (u : Int) :
    ∀ s : Store,
      lookupStore u (s.map (fun p => (p.1, f p.1 p.2))) =
        (lookupStore u s).map (f u) := by
  intro s
  induction s with
  | nil => simp [lookupStore]
  | cons p rest ih =>
      by_cases h : p.1 = u
      · simp [lookupStore, h]
      · simp [lookupStore, h, ih]

theorem scanAlertList_eq (fee eth : ℚ) (k : Int → ℚ → Bool) (uid : Int)
    (as : List Alert) :
    scanAlertList fee eth k uid as =
      (as.map (fireIf fee),
       (as.filter (triggersNow fee)).map (mkNotif fee eth k uid)) := by
  induction as with
  | nil => rfl
  | cons a rest ih =>
      by_cases h : triggersNow fee a
      · simp [scanAlertList, ih, List.filter_cons, h, fireIf]
      · simp [scanAlertList, ih, List.filter_cons, h, fireIf]

theorem scanStore_fst (fee eth : ℚ) (k : Int → ℚ → Bool) :
    ∀ s : Store,
      (scanStore fee eth k s).1 =
        s.map (fun p => (p.1, p.2.map (fireIf fee))) := by
  intro s
  induction s with
  | nil => rfl
  | cons p rest ih =>
      simp [scanStore, scanAlertList_eq, ih]

theorem scanStore_snd (fee eth : ℚ) (k : Int → ℚ → Bool) :
    ∀ s : Store,
      (scanStore fee eth k s).2 =
        s.flatMap (fun p =>
          (p.2.filter (triggersNow fee)).map (mkNotif fee eth k p.1)) := by
  intro s
  induction s with
  | nil => rfl
  | cons p rest ih =>
      simp [scanStore, scanAlertList_eq, ih]

theorem triggersNow_fireIf (fee : ℚ) (a : Alert) :
    triggersNow fee (fireIf fee a) = false := by
  by_cases h : triggersNow fee a = true
  · rw [fireIf, if_pos h]
    simp [triggersNow]
  · rw [fireIf, if_neg h]
    simpa using h

theorem fireIf_fireIf (fee : ℚ) (a : Alert) :
    fireIf fee (fireIf fee a) = fireIf fee a := by
  have h := triggersNow_fireIf fee a
  show (if triggersNow fee (fireIf fee a) = true then
      { fireIf fee a with triggered := true } else fireIf fee a) = fireIf fee a
  rw [h]
  simp

theorem get_scanStore (fee eth : ℚ) (k : Int → ℚ → Bool) (u : Int)
    (s : Store) :
    get_user_alerts u (scanStore fee eth k s).1 =
      (get_user_alerts u s).map (fireIf fee) := by
  rw [scanStore_fst, get_user_alerts, get_user_alerts,
    lookup_map_store (fun _ as => as.map (fireIf fee)) u s]
  cases lookupStore u s <;> rfl

theorem lookup_mem (u : Int) (as : List Alert) :
    ∀ s : Store, lookupStore u s = some as → (u, as) ∈ s := by
  intro s
  induction s with
  | nil => intro h; cases h
  | cons p rest ih =>
      obtain ⟨w, bs⟩ := p
      intro h
      rw [lookupStore] at h
      by_cases hp : w = u
      · rw [if_pos hp] at h
        cases h
        subst hp
        exact List.mem_cons_self _ _
      · rw [if_neg hp] at h
        exact List.mem_cons_of_mem _ (ih h)

theorem add_alert_eq (now : ℕ) (uid : Int) (price : ℚ) (s : Store) :
    add_alert now uid price s =
      if price < MIN_ALERT_PRICE ∨ price > MAX_ALERT_PRICE then
        (AddResult.priceOutOfRange, s)
      else if MAX_ALERTS_PER_USER ≤ (get_user_alerts uid s).length then
        (AddResult.capacityExceeded, s)
      else
        (AddResult.added ⟨price, now, false⟩,
         setStore uid
           (get_user_alerts uid s ++ [⟨price, now, false⟩]) s) := by
  unfold add_alert get_user_alerts
  cases hx : lookupStore uid s with
  | none => simp [MAX_ALERTS_PER_USER]
  | some as => simp

theorem delete_alert_eq (uid alert_index : Int) (s : Store) :
    delete_alert uid alert_index s =
      if 0 ≤ alert_index ∧
          alert_index < ((get_user_alerts uid s).length : Int) then
        (true,
         setStore uid
           ((get_user_alerts uid s).take alert_index.toNat ++
            (get_user_alerts uid s).drop (alert_index.toNat + 1)) s)
      else (false, s) := by
  unfold delete_alert get_user_alerts
  cases hx : lookupStore uid s with
  | none =>
      rw [if_neg]
      intro h
      simp at h
      omega
  | some as => simp

theorem get_clear (u v : Int) (s : Store) :
    get_user_alerts v (clear_user_alerts u s).2 =
      if v = u then [] else get_user_alerts v s := by
  unfold clear_user_alerts
  cases hx : lookupStore u s with
  | none =>
      by_cases h : v = u
      · subst h
        simp [get_user_alerts, hx]
      · simp [h]
  | some as =>
      by_cases h : v = u
      · subst h
        simp [get_setStore_self]
      · simp [h, get_setStore_ne u v [] h]

theorem clear_count (u : Int) (s : Store) :
    (clear_user_alerts u s).1 = (get_user_alerts u s).length := by
  unfold clear_user_alerts
  cases hx : lookupStore u s with
  | none => simp [get_user_alerts, hx]
  | some as => simp [get_user_alerts, hx]

theorem has_alerts_eq (u : Int) (s : Store) :
    has_alerts u s = !(get_user_alerts u s).isEmpty := by
  unfold has_alerts get_user_alerts
  cases hx : lookupStore u s with
  | none => rfl
  | some as => cases as <;> simp

theorem get_add (now : ℕ) (u : Int) (p : ℚ) (v : Int) (s : Store) :
    get_user_alerts v (add_alert now u p s).2 =
      if (p < MIN_ALERT_PRICE ∨ p > MAX_ALERT_PRICE) ∨
          MAX_ALERTS_PER_USER ≤ (get_user_alerts u s).length then
        get_user_alerts v s
      else if v = u then
        get_user_alerts u s ++ [⟨p, now, false⟩]
      else get_user_alerts v s := by
  rw [add_alert_eq]
  by_cases h1 : p < MIN_ALERT_PRICE ∨ p > MAX_ALERT_PRICE
  · simp [h1]
  · by_cases h2 : MAX_ALERTS_PER_USER ≤ (get_user_alerts u s).length
    · simp [h1, h2]
    · by_cases h3 : v = u
      · subst h3
        simp [h1, h2, get_setStore_self]
      · simp [h1, h2, h3, get_setStore_ne u v _ h3]

theorem add_alert_fst (now : ℕ) (u : Int) (p : ℚ) (s : Store) :
    (add_alert now u p s).1 =
      if p < MIN_ALERT_PRICE ∨ p > MAX_ALERT_PRICE then
        AddResult.priceOutOfRange
      else if MAX_ALERTS_PER_USER ≤ (get_user_alerts u s).length then
        AddResult.capacityExceeded
      else AddResult.added ⟨p, now, false⟩ := by
  rw [add_alert_eq]
  by_cases h1 : p < MIN_ALERT_PRICE ∨ p > MAX_ALERT_PRICE
  · simp [h1]
  · by_cases h2 : MAX_ALERTS_PER_USER ≤ (get_user_alerts u s).length
    · simp [h1, h2]
    · simp [h1, h2]

theorem get_delete (u idx : Int) (v : Int) (s : Store) :
    get_user_alerts v (delete_alert u idx s).2 =
      if v = u ∧ 0 ≤ idx ∧ idx < ((get_user_alerts u s).length : Int) then
        (get_user_alerts u s).take idx.toNat ++
          (get_user_alerts u s).drop (idx.toNat + 1)
      else get_user_alerts v s := by
  rw [delete_alert_eq]
  by_cases hc : 0 ≤ idx ∧ idx < ((get_user_alerts u s).length : Int)
  · by_cases hv : v = u
    · subst hv
      simp [hc, get_setStore_self]
    · simp [hc, hv, get_setStore_ne u v _ hv]
  · have hcc : ¬(v = u ∧ 0 ≤ idx ∧ idx < ((get_user_alerts u s).length : Int)) :=
      fun hh => hc hh.2
    simp [hc, hcc]

theorem delete_alert_fst (u idx : Int) (s : Store) :
    (delete_alert u idx s).1 =
      decide (0 ≤ idx ∧ idx < ((get_user_alerts u s).length : Int)) := by
  rw [delete_alert_eq]
  by_cases hc : 0 ≤ idx ∧ idx < ((get_user_alerts u s).length : Int)
  · simp [hc]
  · simp [hc]

theorem map_fireIf_idem (fee : ℚ) (as : List Alert) :
    (as.map (fireIf fee)).map (fireIf fee) = as.map (fireIf fee) := by
  induction as with
  | nil => rfl
  | cons a rest ih => simp [ih, fireIf_fireIf]

theorem filter_triggersNow_map_fireIf (fee : ℚ) (as : List Alert) :
    (as.map (fireIf fee)).filter (triggersNow fee) = [] := by
  induction as with
  | nil => rfl
  | cons a rest ih => simp [List.filter_cons, triggersNow_fireIf, ih]

theorem notifsFor_flatMap_nil (fee eth : ℚ) (k : Int → ℚ → Bool) (u : Int) :
    ∀ s : Store, u ∉ s.map Prod.fst →
      notifsFor u (s.flatMap (fun p =>
        (p.2.filter (triggersNow fee)).map (mkNotif fee eth k p.1))) = [] := by
  intro s
  induction s with
  | nil => intro _; rfl
  | cons p rest ih =>
      intro hu
      rw [List.map_cons, List.mem_cons] at hu
      push_neg at hu
      obtain ⟨h1, h2⟩ := hu
      simp only [List.flatMap_cons, notifsFor, List.filter_append]
      have hfirst :
          List.filter (fun n => n.user = u)
            ((p.2.filter (triggersNow fee)).map (mkNotif fee eth k p.1)) =
            [] := by
        rw [List.filter_eq_nil_iff]
        intro n hn
        obtain ⟨a, _, rfl⟩ := List.mem_map.mp hn
        simp [mkNotif]
        exact fun hh => h1 hh.symm
      rw [hfirst, List.nil_append]
      have := ih h2
      simpa [notifsFor] using this

theorem notifsFor_scanStore (fee eth : ℚ) (k : Int → ℚ → Bool) (u : Int) :
    ∀ s : Store, NoDupKeys s →
      notifsFor u (scanStore fee eth k s).2 =
        ((get_user_alerts u s).filter (triggersNow fee)).map
          (mkNotif fee eth k u) := by
  intro s
  rw [scanStore_snd]
  induction s with
  | nil => intro _; rfl
  | cons p rest ih =>
      intro hnd
      obtain ⟨w, bs⟩ := p
      rw [NoDupKeys, List.map_cons, List.nodup_cons] at hnd
      obtain ⟨hw, hnd2⟩ := hnd
      simp only [List.flatMap_cons, notifsFor, List.filter_append]
      by_cases h : w = u
      · subst h
        have hget : get_user_alerts w ((w, bs) :: rest) = bs := by
          simp [get_user_alerts, lookupStore]
        rw [hget]
        have hrest := notifsFor_flatMap_nil fee eth k w rest hw
        rw [notifsFor] at hrest
        rw [hrest, List.append_nil]
        exact List.filter_eq_self.mpr (by
          intro n hn
          obtain ⟨a, _, rfl⟩ := List.mem_map.mp hn
          simp [mkNotif])
      · have hget : get_user_alerts u ((w, bs) :: rest) = get_user_alerts u rest := by
          simp [get_user_alerts, lookupStore, h]
        rw [hget]
        have hfirst :
            List.filter (fun n => n.user = u)
              ((bs.filter (triggersNow fee)).map (mkNotif fee eth k w)) =
              [] := by
          rw [List.filter_eq_nil_iff]
          intro n hn
          obtain ⟨a, _, rfl⟩ := List.mem_map.mp hn
          simp [mkNotif]
          exact h
        rw [hfirst, List.nil_append]
        simpa [notifsFor] using ih hnd2

/- ### Claim theorems -/

/-- C1, counterexample: the claim says that a fee parsing to a non-positive
value makes the scan abort silently with no alert evaluation, no `triggered`
change and no notification.  At the concrete input fee `-5` (which is
non-positive) with one stored untriggered alert at target `5`, the scan does
NOT abort: it flips the alert's `triggered` field to true and emits a
notification, because the code only aborts when the parsed fee equals `0`. -/
theorem scan_negative_fee_not_aborted :
    ((-5 : ℚ) < 0) ∧
    check_and_notify_alerts (some ⟨some (FeeField.num (-5))⟩) none
        (fun _ _ => true) [(1, [⟨5, 0, false⟩])] =
      Except.ok ([(1, [⟨5, 0, true⟩])],
        [⟨1, 5, -5, calculate_tx_cost (-5) GAS_LIMITS_eth_transfer 2500,
          calculate_tx_cost (-5) GAS_LIMITS_token_swap 2500, true⟩]) ∧
    ([(1, [⟨(5 : ℚ), 0, true⟩])] : Store) ≠ [(1, [⟨5, 0, false⟩])] ∧
    ([(⟨1, 5, -5, calculate_tx_cost (-5) GAS_LIMITS_eth_transfer 2500,
        calculate_tx_cost (-5) GAS_LIMITS_token_swap 2500, true⟩ :
        Notification)] ≠ ([] : List Notification)) := by
  refine ⟨by decide, ?_, by decide, by decide⟩
  rfl

/-- C1, amended: if the fee data source is unavailable, or the
`ProposeGasPrice` field is missing, or it parses to exactly `0`, the scan
aborts silently — no alert is evaluated, no `triggered` field changes, no
notification is emitted, and nothing is raised to the scheduler.  A fee value
that fails to parse instead raises to the scheduler (before any state
change), and a negative parsed fee does not abort the scan. -/
theorem scan_abort_conditions (eth : Option ℚ) (k : Int → ℚ → Bool)
    (s : Store) (gd : GasData) :
    check_and_notify_alerts none eth k s = Except.ok (s, []) ∧
    (gd.proposeGasPrice = none →
       check_and_notify_alerts (some gd) eth k s = Except.ok (s, [])) ∧
    (gd.proposeGasPrice = some (FeeField.num 0) →
       check_and_notify_alerts (some gd) eth k s = Except.ok (s, [])) ∧
    (gd.proposeGasPrice = some FeeField.invalid →
       check_and_notify_alerts (some gd) eth k s = Except.error ()) := by
  refine ⟨rfl, ?_, ?_, ?_⟩ <;> intro h <;>
    simp [check_and_notify_alerts, h]

theorem scan_abort_conditions_witness :
    ((⟨some (FeeField.num 0)⟩ : GasData).proposeGasPrice =
      some (FeeField.num 0)) ∧
    check_and_notify_alerts (some ⟨some (FeeField.num 0)⟩) none
        (fun _ _ => true) [(1, [⟨5, 0, false⟩])] =
      Except.ok ([(1, [⟨5, 0, false⟩])], []) :=
  ⟨rfl,
   (scan_abort_conditions none (fun _ _ => true) [(1, [⟨5, 0, false⟩])]
      ⟨some (FeeField.num 0)⟩).2.2.1 rfl⟩

/-- C2: in one scan at fee `fee`, every stored alert is replaced by
`fireIf fee` of itself — i.e. its `triggered` field is set to true exactly
when it was false and `fee ≤ target_price` (equality counts as crossed), and
it is left unchanged otherwise — and the emitted notifications are exactly
one per alert passing that test, taken independently in order, so two equal
alerts of one subscriber each trigger and notify independently. -/
theorem scan_crossing_iff (fee eth : ℚ) (sendOk : Int → ℚ → Bool)
    (s : Store) :
    (scanStore fee eth sendOk s).1 =
      s.map (fun p => (p.1, p.2.map (fireIf fee))) ∧
    (scanStore fee eth sendOk s).2 =
      s.flatMap (fun p =>
        (p.2.filter (triggersNow fee)).map (mkNotif fee eth sendOk p.1)) ∧
    (∀ a : Alert,
       triggersNow fee a = true ↔ (a.triggered = false ∧ fee ≤ a.price)) ∧
    (∀ a : Alert,
       fireIf fee a =
         if triggersNow fee a then { a with triggered := true } else a) ∧
    (∀ u : Int, ∀ i : ℕ,
       (get_user_alerts u (scanStore fee eth sendOk s).1)[i]? =
         ((get_user_alerts u s)[i]?).map (fireIf fee)) ∧
    (∀ a : Alert, a.triggered = false → triggersNow a.price a = true) := by
  refine ⟨scanStore_fst fee eth sendOk s, scanStore_snd fee eth sendOk s,
    ?_, fun a => rfl, ?_, ?_⟩
  · intro a
    simp [triggersNow]
  · intro u i
    rw [get_scanStore]
    simp
  · intro a ha
    simp [triggersNow, ha]

theorem scan_crossing_iff_witness :
    ((⟨5, 0, false⟩ : Alert).triggered = false) ∧
    triggersNow (5 : ℚ) ⟨5, 0, false⟩ = true :=
  ⟨rfl, (scan_crossing_iff 5 2500 (fun _ _ => true) []).2.2.2.2.2
    ⟨5, 0, false⟩ rfl⟩

/-- C3: scanning twice in a row at the same fee level leaves the store of the
first scan unchanged and emits zero notifications on the second scan, while
the first scan emits exactly one notification per alert it newly crossed
(one per stored alert passing the trigger test). -/
theorem scan_idempotent (fee eth : ℚ) (k k2 : Int → ℚ → Bool) (s : Store) :
    (scanStore fee eth k2 (scanStore fee eth k s).1).1 =
      (scanStore fee eth k s).1 ∧
    (scanStore fee eth k2 (scanStore fee eth k s).1).2 = [] ∧
    (scanStore fee eth k s).2.length =
      (s.flatMap (fun p => p.2.filter (triggersNow fee))).length := by
  refine ⟨?_, ?_, ?_⟩
  · rw [scanStore_fst, scanStore_fst, List.map_map]
    apply List.map_congr_left
    intro p _
    simp only [Function.comp_apply]
    rw [map_fireIf_idem]
  · rw [scanStore_snd, scanStore_fst]
    induction s with
    | nil => rfl
    | cons p rest ih =>
        simp [filter_triggersNow_map_fireIf, ih]
  · rw [scanStore_snd]
    induction s with
    | nil => rfl
    | cons p rest ih => simp [ih]

/-- C4: an alert whose `triggered` field is true is left untouched (at its
position) by any scan at any fee level and by `add_alert`; `delete_alert` and
`clear_user_alerts` only ever remove alert records, never alter a surviving
one; and a triggered alert produces no further notification in a scan, so
each alert causes at most one notification in its lifetime. -/
theorem triggered_monotone (fee eth : ℚ) (k : Int → ℚ → Bool) (now : ℕ)
    (uid uid2 : Int) (price : ℚ) (idx : Int) (s : Store) (i : ℕ) (a : Alert)
    (ha : (get_user_alerts uid s)[i]? = some a) (ht : a.triggered = true) :
    (get_user_alerts uid (scanStore fee eth k s).1)[i]? = some a ∧
    (get_user_alerts uid (add_alert now uid2 price s).2)[i]? = some a ∧
    (∀ v : Int, ∀ b ∈ get_user_alerts v (delete_alert uid2 idx s).2,
        b ∈ get_user_alerts v s) ∧
    (∀ v : Int, ∀ b ∈ get_user_alerts v (clear_user_alerts uid2 s).2,
        b ∈ get_user_alerts v s) ∧
    scanStore fee eth k [(uid, [a])] = ([(uid, [a])], []) := by
  have htrig : triggersNow fee a = false := by simp [triggersNow, ht]
  have hfire : fireIf fee a = a := by rw [fireIf, htrig]; rfl
  refine ⟨?_, ?_, ?_, ?_, ?_⟩
  · rw [get_scanStore]
    simp [ha, hfire]
  · rw [get_add]
    by_cases hcond : ((price < MIN_ALERT_PRICE ∨ price > MAX_ALERT_PRICE) ∨
        MAX_ALERTS_PER_USER ≤ (get_user_alerts uid2 s).length)
    · rw [if_pos hcond]; exact ha
    · rw [if_neg hcond]
      by_cases h2 : uid = uid2
      · rw [if_pos h2]
        subst h2
        obtain ⟨hi, -⟩ := List.getElem?_eq_some.mp ha
        rw [List.getElem?_append_left hi]
        exact ha
      · rw [if_neg h2]; exact ha
  · intro v b hb
    rw [get_delete] at hb
    by_cases hc : v = uid2 ∧ 0 ≤ idx ∧
        idx < ((get_user_alerts uid2 s).length : Int)
    · rw [if_pos hc] at hb
      rw [hc.1]
      rcases List.mem_append.mp hb with hx | hx
      · exact List.take_subset _ _ hx
      · exact List.drop_subset _ _ hx
    · rw [if_neg hc] at hb; exact hb
  · intro v b hb
    rw [get_clear] at hb
    by_cases hc : v = uid2
    · rw [if_pos hc] at hb
      cases hb
    · rw [if_neg hc] at hb; exact hb
  · simp [scanStore, scanAlertList, htrig]

theorem triggered_monotone_witness :
    ((get_user_alerts 1 [(1, [⟨5, 0, true⟩])])[0]? = some ⟨5, 0, true⟩) ∧
    ((⟨5, 0, true⟩ : Alert).triggered = true) ∧
    (get_user_alerts 1
        (scanStore 3 2500 (fun _ _ => true) [(1, [⟨5, 0, true⟩])]).1)[0]? =
      some ⟨5, 0, true⟩ :=
  ⟨by decide, rfl,
   (triggered_monotone 3 2500 (fun _ _ => true) 0 1 1 6 0
      [(1, [⟨5, 0, true⟩])] 0 ⟨5, 0, true⟩ (by decide) rfl).1⟩

/-- C5: a target price outside the inclusive range
`[MIN_ALERT_PRICE, MAX_ALERT_PRICE]` makes `add_alert` return the
price-range failure with the store completely unchanged (no alert appended,
no subscriber entry created), while either bound itself is accepted whenever
the subscriber is below capacity. -/
theorem add_alert_range (now : ℕ) (uid : Int) (price : ℚ) (s : Store)
    (h : price < MIN_ALERT_PRICE ∨ price > MAX_ALERT_PRICE) :
    add_alert now uid price s = (AddResult.priceOutOfRange, s) ∧
    ((get_user_alerts uid s).length < MAX_ALERTS_PER_USER →
       (add_alert now uid MIN_ALERT_PRICE s).1 =
         AddResult.added ⟨MIN_ALERT_PRICE, now, false⟩ ∧
       (add_alert now uid MAX_ALERT_PRICE s).1 =
         AddResult.added ⟨MAX_ALERT_PRICE, now, false⟩) := by
  constructor
  · rw [add_alert_eq, if_pos h]
  · intro hcap
    have hc2 : ¬MAX_ALERTS_PER_USER ≤ (get_user_alerts uid s).length :=
      Nat.not_le.mpr hcap
    constructor
    · rw [add_alert_fst,
        if_neg (by norm_num [MIN_ALERT_PRICE, MAX_ALERT_PRICE]), if_neg hc2]
    · rw [add_alert_fst,
        if_neg (by norm_num [MIN_ALERT_PRICE, MAX_ALERT_PRICE]), if_neg hc2]

theorem add_alert_range_witness :
    ((2000 : ℚ) < MIN_ALERT_PRICE ∨ (2000 : ℚ) > MAX_ALERT_PRICE) ∧
    add_alert 0 1 2000 [] = (AddResult.priceOutOfRange, []) :=
  ⟨by norm_num [MIN_ALERT_PRICE, MAX_ALERT_PRICE],
   (add_alert_range 0 1 2000 []
      (by norm_num [MIN_ALERT_PRICE, MAX_ALERT_PRICE])).1⟩

/-- C6: a subscriber already holding `MAX_ALERTS_PER_USER` alerts gets the
capacity failure from one more in-range `add_alert`, with the store
unchanged; and the range check fires before the capacity check, so an
out-of-range price on a full subscriber yields the range failure instead. -/
theorem add_alert_capacity (now : ℕ) (uid : Int) (price : ℚ) (s : Store)
    (hfull : (get_user_alerts uid s).length = MAX_ALERTS_PER_USER)
    (hin : MIN_ALERT_PRICE ≤ price ∧ price ≤ MAX_ALERT_PRICE) :
    add_alert now uid price s = (AddResult.capacityExceeded, s) ∧
    (∀ q : ℚ, q < MIN_ALERT_PRICE ∨ q > MAX_ALERT_PRICE →
       add_alert now uid q s = (AddResult.priceOutOfRange, s)) := by
  constructor
  · have hno : ¬(price < MIN_ALERT_PRICE ∨ price > MAX_ALERT_PRICE) := by
      rintro (h1 | h2)
      · exact absurd h1 (not_lt.mpr hin.1)
      · exact absurd h2 (not_lt.mpr hin.2)
    rw [add_alert_eq, if_neg hno, if_pos hfull.ge]
  · intro q hq
    rw [add_alert_eq, if_pos hq]

theorem add_alert_capacity_witness :
    ((get_user_alerts 1 [(1, List.replicate 10 ⟨5, 0, false⟩)]).length =
      MAX_ALERTS_PER_USER) ∧
    add_alert 0 1 5 [(1, List.replicate 10 ⟨5, 0, false⟩)] =
      (AddResult.capacityExceeded, [(1, List.replicate 10 ⟨5, 0, false⟩)]) :=
  ⟨by decide,
   (add_alert_capacity 0 1 5 [(1, List.replicate 10 ⟨5, 0, false⟩)]
      (by decide) (by norm_num [MIN_ALERT_PRICE, MAX_ALERT_PRICE])).1⟩

/-- C8: with a known subscriber and `0 ≤ idx < n`, `delete_alert` returns
true, removes exactly the alert at zero-based position `idx` (earlier
positions unchanged, later positions shifted down by one, length reduced by
one, other subscribers untouched); an unknown subscriber or an out-of-bounds
index — including any negative index — returns false with the store
unchanged. -/
theorem delete_alert_spec (uid idx : Int) (s : Store) :
    (∀ as : List Alert, lookupStore uid s = some as →
       0 ≤ idx → idx < (as.length : Int) →
       (delete_alert uid idx s).1 = true ∧
       get_user_alerts uid (delete_alert uid idx s).2 =
         as.take idx.toNat ++ as.drop (idx.toNat + 1) ∧
       (get_user_alerts uid (delete_alert uid idx s).2).length =
         as.length - 1 ∧
       (∀ j : ℕ, j < idx.toNat →
          (get_user_alerts uid (delete_alert uid idx s).2)[j]? = as[j]?) ∧
       (∀ j : ℕ, idx.toNat ≤ j →
          (get_user_alerts uid (delete_alert uid idx s).2)[j]? =
            as[j + 1]?) ∧
       (∀ v : Int, v ≠ uid →
          lookupStore v (delete_alert uid idx s).2 = lookupStore v s)) ∧
    ((lookupStore uid s = none ∨ idx < 0 ∨
        ((get_user_alerts uid s).length : Int) ≤ idx) →
       delete_alert uid idx s = (false, s)) := by
  constructor
  · intro as hlk h0 hlt
    have hget : get_user_alerts uid s = as := by simp [get_user_alerts, hlk]
    have hcond : 0 ≤ idx ∧ idx < ((get_user_alerts uid s).length : Int) := by
      rw [hget]; exact ⟨h0, hlt⟩
    have hn : idx.toNat < as.length := by omega
    have hstore : (delete_alert uid idx s).2 =
        setStore uid (as.take idx.toNat ++ as.drop (idx.toNat + 1)) s := by
      rw [delete_alert_eq, if_pos hcond, hget]
    have hfst : (delete_alert uid idx s).1 = true := by
      rw [delete_alert_eq, if_pos hcond]
    have hgd : get_user_alerts uid (delete_alert uid idx s).2 =
        as.take idx.toNat ++ as.drop (idx.toNat + 1) := by
      rw [hstore, get_setStore_self]
    refine ⟨hfst, hgd, ?_, ?_, ?_, ?_⟩
    · rw [hgd]
      rw [List.length_append, List.length_take, List.length_drop]
      omega
    · intro j hj
      have hjt : j < (as.take idx.toNat).length := by
        rw [List.length_take]; omega
      rw [hgd, List.getElem?_append_left hjt, List.getElem?_take_of_lt hj]
    · intro j hj
      have hjt : (as.take idx.toNat).length ≤ j := by
        rw [List.length_take]; omega
      rw [hgd, List.getElem?_append_right hjt, List.getElem?_drop]
      have harith : idx.toNat + 1 + (j - (as.take idx.toNat).length) =
          j + 1 := by
        rw [List.length_take]; omega
      rw [harith]
    · intro v hv
      rw [hstore]
      exact lookup_setStore_ne uid v _ hv s
  · intro h
    have hcond : ¬(0 ≤ idx ∧
        idx < ((get_user_alerts uid s).length : Int)) := by
      rcases h with h1 | h2 | h3
      · have hlen : ((get_user_alerts uid s).length : Int) = 0 := by
          simp [get_user_alerts, h1]
        omega
      · omega
      · omega
    rw [delete_alert_eq, if_neg hcond]

theorem delete_alert_spec_witness :
    (lookupStore 1 [(1, [⟨5, 0, false⟩, ⟨6, 1, false⟩, ⟨7, 2, false⟩])] =
      some [⟨5, 0, false⟩, ⟨6, 1, false⟩, ⟨7, 2, false⟩]) ∧
    (delete_alert 1 1 [(1, [⟨5, 0, false⟩, ⟨6, 1, false⟩, ⟨7, 2, false⟩])]).1 =
      true ∧
    get_user_alerts 1
        (delete_alert 1 1
          [(1, [⟨5, 0, false⟩, ⟨6, 1, false⟩, ⟨7, 2, false⟩])]).2 =
      [⟨5, 0, false⟩, ⟨7, 2, false⟩] := by
  have h := (delete_alert_spec 1 1
      [(1, [⟨5, 0, false⟩, ⟨6, 1, false⟩, ⟨7, 2, false⟩])]).1
    [⟨5, 0, false⟩, ⟨6, 1, false⟩, ⟨7, 2, false⟩]
    (by decide) (by decide) (by decide)
  refine ⟨by decide, h.1, ?_⟩
  rw [h.2.1]
  decide

/-- C9: delivery outcomes are fully contained within one scan: the resulting
store and the delivery-independent content and order of the emitted
notifications are identical whatever the sink does, and every emitted
notification's alert ends the scan with `triggered = true` (so a failed
notification is not retried and does not block any other alert). -/
theorem delivery_failure_contained (fee eth : ℚ) (k k2 : Int → ℚ → Bool)
    (s : Store) :
    (scanStore fee eth k s).1 = (scanStore fee eth k2 s).1 ∧
    (scanStore fee eth k s).2.map notifCore =
      (scanStore fee eth k2 s).2.map notifCore ∧
    (∀ n ∈ (scanStore fee eth k s).2,
       ∃ u as, (u, as) ∈ (scanStore fee eth k s).1 ∧ u = n.user ∧
         ∃ a ∈ as, a.triggered = true ∧ a.price = n.target_price) := by
  refine ⟨?_, ?_, ?_⟩
  · rw [scanStore_fst, scanStore_fst]
  · rw [scanStore_snd, scanStore_snd]
    induction s with
    | nil => rfl
    | cons p rest ih =>
        simp only [List.flatMap_cons, List.map_append]
        rw [ih]
        congr 1
        rw [List.map_map, List.map_map]
        apply List.map_congr_left
        intro a _
        rfl
  · intro n
    induction s with
    | nil =>
        intro hn
        simp [scanStore] at hn
    | cons p rest ih =>
        obtain ⟨w, bs⟩ := p
        intro hn
        rw [scanStore_snd, List.flatMap_cons] at hn
        rcases List.mem_append.mp hn with hx | hx
        · obtain ⟨a, hamem, rfl⟩ := List.mem_map.mp hx
          obtain ⟨hab, hat⟩ := List.mem_filter.mp hamem
          refine ⟨w, bs.map (fireIf fee), ?_, rfl, ?_⟩
          · rw [scanStore_fst, List.map_cons]
            exact List.mem_cons_self _ _
          · refine ⟨fireIf fee a, List.mem_map_of_mem _ hab, ?_, ?_⟩
            · rw [fireIf, if_pos hat]
            · rw [fireIf]
              split <;> rfl
        · have h2 : n ∈ (scanStore fee eth k rest).2 := by
            rw [scanStore_snd]; exact hx
          obtain ⟨u, as, hmem, hu, hex⟩ := ih h2
          refine ⟨u, as, ?_, hu, hex⟩
          rw [scanStore_fst, List.map_cons]
          rw [scanStore_fst] at hmem
          exact List.mem_cons_of_mem _ hmem

theorem delivery_failure_contained_witness :
    ((⟨1, 5, 3, calculate_tx_cost 3 GAS_LIMITS_eth_transfer 7,
        calculate_tx_cost 3 GAS_LIMITS_token_swap 7, false⟩ : Notification) ∈
      (scanStore 3 7 (fun _ _ => false) [(1, [⟨5, 0, false⟩])]).2) ∧
    (∃ u as,
       (u, as) ∈ (scanStore 3 7 (fun _ _ => false) [(1, [⟨5, 0, false⟩])]).1 ∧
       u = (1 : Int) ∧ ∃ a ∈ as, a.triggered = true ∧ a.price = (5 : ℚ)) :=
  ⟨List.Mem.head _,
   (delivery_failure_contained 3 7 (fun _ _ => false) (fun _ _ => true)
      [(1, [⟨5, 0, false⟩])]).2.2
     ⟨1, 5, 3, calculate_tx_cost 3 GAS_LIMITS_eth_transfer 7,
      calculate_tx_cost 3 GAS_LIMITS_token_swap 7, false⟩ (List.Mem.head _)⟩

theorem storeInv_setStore (u : Int) (as : List Alert)
    (hlen : as.length ≤ MAX_ALERTS_PER_USER) :
    ∀ s : Store, StoreInv s → StoreInv (setStore u as s) := by
  intro s
  induction s with
  | nil =>
      intro _ p hp
      simp only [setStore, List.mem_singleton] at hp
      subst hp
      exact hlen
  | cons q rest ih =>
      obtain ⟨w, bs⟩ := q
      intro hs p hp
      rw [setStore] at hp
      by_cases hw : w = u
      · rw [if_pos hw] at hp
        rcases List.mem_cons.mp hp with hp | hp
        · subst hp; exact hlen
        · exact hs p (List.mem_cons_of_mem _ hp)
      · rw [if_neg hw] at hp
        rcases List.mem_cons.mp hp with hp | hp
        · subst hp
          exact hs _ (List.mem_cons_self _ _)
        · exact ih (fun q hq => hs q (List.mem_cons_of_mem _ hq)) p hp

theorem storeInv_get (u : Int) (s : Store) (h : StoreInv s) :
    (get_user_alerts u s).length ≤ MAX_ALERTS_PER_USER := by
  unfold get_user_alerts
  cases hx : lookupStore u s with
  | none => simp
  | some as => exact h (u, as) (lookup_mem u as s hx)

theorem storeInv_scanStore (fee eth : ℚ) (k : Int → ℚ → Bool) (s : Store)
    (h : StoreInv s) : StoreInv (scanStore fee eth k s).1 := by
  rw [scanStore_fst]
  intro p hp
  obtain ⟨q, hq, rfl⟩ := List.mem_map.mp hp
  simpa using h q hq

theorem storeInv_applyOp (s : Store) (op : Op) (h : StoreInv s) :
    StoreInv (applyOp s op) := by
  cases op with
  | add now uid price =>
      show StoreInv (add_alert now uid price s).2
      rw [add_alert_eq]
      by_cases h1 : price < MIN_ALERT_PRICE ∨ price > MAX_ALERT_PRICE
      · rw [if_pos h1]; exact h
      · rw [if_neg h1]
        by_cases h2 : MAX_ALERTS_PER_USER ≤ (get_user_alerts uid s).length
        · rw [if_pos h2]; exact h
        · rw [if_neg h2]
          apply storeInv_setStore _ _ ?_ s h
          rw [List.length_append]
          simp only [List.length_singleton]
          omega
  | del uid idx =>
      show StoreInv (delete_alert uid idx s).2
      rw [delete_alert_eq]
      by_cases hc : 0 ≤ idx ∧ idx < ((get_user_alerts uid s).length : Int)
      · rw [if_pos hc]
        apply storeInv_setStore _ _ ?_ s h
        have hle := storeInv_get uid s h
        rw [List.length_append, List.length_take, List.length_drop]
        omega
      · rw [if_neg hc]; exact h
  | clear uid =>
      show StoreInv (clear_user_alerts uid s).2
      cases hx : lookupStore uid s with
      | none => simp only [clear_user_alerts, hx]; exact h
      | some as =>
          simp only [clear_user_alerts, hx]
          exact storeInv_setStore uid [] (by simp) s h
  | scan gd q kk =>
      cases gd with
      | none => exact h
      | some g =>
          cases hf : g.proposeGasPrice with
          | none =>
              simp only [applyOp, check_and_notify_alerts, hf, Option.getD]
              exact h
          | some f =>
              cases f with
              | invalid =>
                  simp only [applyOp, check_and_notify_alerts, hf, Option.getD]
                  exact h
              | num x =>
                  simp only [applyOp, check_and_notify_alerts, hf, Option.getD]
                  by_cases hx : x = 0
                  · rw [if_pos hx]
                    exact h
                  · rw [if_neg hx]
                    exact storeInv_scanStore x _ kk s h

/-- C7: starting from any store satisfying the per-subscriber capacity bound
(in particular the empty store the process starts with), no sequence of
`add_alert`, `delete_alert`, `clear_user_alerts` and scan-job invocations
ever makes any subscriber's alert list exceed `MAX_ALERTS_PER_USER`. -/
theorem store_capacity_invariant (ops : List Op) (s : Store)
    (h : StoreInv s) : StoreInv (applyOps ops s) := by
  induction ops generalizing s with
  | nil => exact h
  | cons op rest ih => exact ih (applyOp s op) (storeInv_applyOp s op h)

theorem store_capacity_invariant_witness :
    StoreInv ([] : Store) ∧
    StoreInv (applyOps
      [Op.add 0 1 5, Op.add 1 1 6,
       Op.scan (some ⟨some (FeeField.num 4)⟩) none (fun _ _ => true),
       Op.del 1 0, Op.clear 1] []) :=
  ⟨by simp [StoreInv],
   store_capacity_invariant _ [] (by simp [StoreInv])⟩

/-- C10: `has_alerts` answers true exactly when `get_user_alerts` is
non-empty; `clear_user_alerts` keeps the subscriber's key in the dict, bound
to the empty list, instead of removing it; and two stores whose
`get_user_alerts` observations agree everywhere (e.g. one with an empty
entry, one without it) are indistinguishable through the public operations:
every operation returns the same result on both, the resulting stores again
agree on all observations, and a scan delivers the same notifications to
every user. -/
theorem empty_entry_indistinguishable :
    (∀ (u : Int) (s : Store),
       has_alerts u s = true ↔ get_user_alerts u s ≠ []) ∧
    (∀ (u : Int) (s : Store) (as : List Alert), lookupStore u s = some as →
       lookupStore u (clear_user_alerts u s).2 = some []) ∧
    (∀ s1 s2 : Store, NoDupKeys s1 → NoDupKeys s2 → obsEq s1 s2 →
       (∀ u : Int, has_alerts u s1 = has_alerts u s2) ∧
       (∀ (now : ℕ) (u : Int) (p : ℚ),
          (add_alert now u p s1).1 = (add_alert now u p s2).1 ∧
          obsEq (add_alert now u p s1).2 (add_alert now u p s2).2) ∧
       (∀ u idx : Int,
          (delete_alert u idx s1).1 = (delete_alert u idx s2).1 ∧
          obsEq (delete_alert u idx s1).2 (delete_alert u idx s2).2) ∧
       (∀ u : Int,
          (clear_user_alerts u s1).1 = (clear_user_alerts u s2).1 ∧
          obsEq (clear_user_alerts u s1).2 (clear_user_alerts u s2).2) ∧
       (∀ (fee eth : ℚ) (k : Int → ℚ → Bool),
          obsEq (scanStore fee eth k s1).1 (scanStore fee eth k s2).1 ∧
          (∀ u : Int,
             notifsFor u (scanStore fee eth k s1).2 =
               notifsFor u (scanStore fee eth k s2).2))) := by
  refine ⟨?_, ?_, ?_⟩
  · intro u s
    rw [has_alerts_eq]
    cases hget : get_user_alerts u s <;> simp
  · intro u s as h
    simp only [clear_user_alerts, h]
    exact lookup_setStore_self u [] s
  · intro s1 s2 hnd1 hnd2 hobs
    have hg : ∀ w : Int, get_user_alerts w s1 = get_user_alerts w s2 := hobs
    refine ⟨?_, ?_, ?_, ?_, ?_⟩
    · intro u
      simp only [has_alerts_eq, hg]
    · intro now u p
      constructor
      · simp only [add_alert_fst, hg]
      · intro v
        simp only [get_add, hg]
    · intro u idx
      constructor
      · simp only [delete_alert_fst, hg]
      · intro v
        simp only [get_delete, hg]
    · intro u
      constructor
      · simp only [clear_count, hg]
      · intro v
        simp only [get_clear, hg]
    · intro fee eth k
      constructor
      · intro v
        simp only [get_scanStore, hg]
      · intro u
        rw [notifsFor_scanStore fee eth k u s1 hnd1,
          notifsFor_scanStore fee eth k u s2 hnd2, hg u]

theorem empty_entry_indistinguishable_witness :
    NoDupKeys ([(1, [])] : Store) ∧ NoDupKeys ([] : Store) ∧
    has_alerts 1 ([(1, [])] : Store) = has_alerts 1 ([] : Store) :=
  ⟨by simp [NoDupKeys], by simp [NoDupKeys],
   (empty_entry_indistinguishable.2.2 [(1, [])] [] (by simp [NoDupKeys])
      (by simp [NoDupKeys])
      (by
        intro u
        by_cases h : (1 : Int) = u
        · simp [get_user_alerts, lookupStore, h]
        · simp [get_user_alerts, lookupStore, h])).1 1⟩

end GasBot
